import Mathlib

/-!
Shallow embedding of the MovingAveragesDistance strategy (src/solution.py)
and proofs of the spec's testable properties about it.

Modelling conventions: Python floats (prices, moving averages, MAD ratios,
portfolio weights) are modelled as rationals; symbols are opaque identifiers
modelled as naturals.  Rolling windows are lists of prices, newest first,
matching the iteration order of the host framework's RollingWindow.
-/

set_option autoImplicit false

/-- Symbols are opaque identifiers; we model them as naturals. -/
abbrev SymId := ℕ

/-- The setting `self.coarse_count = 500` from `Initialize` (src/solution.py line 17). -/
def coarse_count : ℕ := 500

/-- The setting `self.period = 200` from `Initialize` (src/solution.py line 19). -/
def period : ℕ := 200

/-- Modelled from the spec: the host framework's `RollingWindow[float](capacity)`
(not part of this repository) is a fixed-capacity buffer iterated newest first;
`Add` inserts at the front and the oldest element is evicted once the capacity
is exceeded.  The window contents are a list, newest first. -/
def RollingWindow.add (capacity : ℕ) (w : List ℚ) (p : ℚ) : List ℚ :=
  (p :: w).take capacity

/-- Class `SymbolData` (src/solution.py lines 114-126): a symbol together with its
rolling window of at most `period` most recent prices, newest first. -/
structure SymbolData where
  Symbol : SymId
  Prices : List ℚ

/-- Constructor `SymbolData.__init__` (lines 115-117): the window starts empty. -/
def SymbolData.init (s : SymId) : SymbolData := ⟨s, []⟩

/-- Method `SymbolData.update` (lines 119-120): `self.Prices.Add(price)`. -/
def SymbolData.update (d : SymbolData) (price : ℚ) : SymbolData :=
  { d with Prices := RollingWindow.add period d.Prices price }

/-- Method `SymbolData.is_ready` (lines 122-123): `self.Prices.IsReady`.  Modelled from
the spec: the window is ready once it is full, i.e. holds `period` prices. -/
def SymbolData.is_ready (d : SymbolData) : Bool := d.Prices.length == period

/-- Method `SymbolData.return_prices` (lines 125-126): the window contents, newest first. -/
def SymbolData.return_prices (d : SymbolData) : List ℚ := d.Prices

/-- A sequence of `update(price)` calls, oldest call first. -/
def SymbolData.applyUpdates (d : SymbolData) (prices : List ℚ) : SymbolData :=
  prices.foldl SymbolData.update d

/-- The list `CoarseSelectionFunction` returns on a selection day
(src/solution.py line 70): the ready-filtered symbols, truncated to
`coarse_count`.  `selected` is the dollar-volume-sorted symbol list of line 54;
`data` is the `self.data` map, total here because line 61 inserts a
`SymbolData` for every selected symbol before line 70 runs. -/
def CoarseSelectionFunction.select (selected : List SymId) (data : SymId → SymbolData) : List SymId :=
  (selected.filter (fun s => (data s).is_ready)).take coarse_count

/-- Function `np.average` over a list of prices: sum divided by length
(used at src/solution.py lines 80-81). -/
def npAverage (xs : List ℚ) : ℚ := xs.sum / (xs.length : ℚ)

/-- The MAD value computed for one symbol (src/solution.py lines 79-83):
`np.average(prices[:21]) / np.average(prices)` over the newest-first
price list returned by `return_prices`. -/
def madOf (prices : List ℚ) : ℚ := npAverage (prices.take 21) / npAverage prices

/-- The state `FineSelectionFunction` leaves behind: the `MAD` dict
(as an association list in insertion order) and `self.long`, `self.short`. -/
structure FineResult where
  mads : List (SymId × ℚ)
  long : List SymId
  short : List SymId

/-- Hook `FineSelectionFunction` (src/solution.py lines 72-88) after the exchange
filter of line 73: `entries` pairs each surviving symbol with the price window
of its `SymbolData`; lines 76-83 build one MAD entry per symbol and lines
85-86 split them at the fixed thresholds 1.2 and 0.8. -/
def FineSelectionFunction (entries : List (SymId × List ℚ)) : FineResult :=
  let mads := entries.map (fun e => (e.1, madOf e.2))
  { mads := mads
    long := (mads.filter (fun x => decide ((12 : ℚ)/10 ≤ x.2))).map Prod.fst
    short := (mads.filter (fun x => decide (x.2 ≤ (8 : ℚ)/10))).map Prod.fst }

/-- Written from the spec's words, for the refinement claim: MAD is the mean of
the most recent 21 prices divided by the mean of all 200 prices in the window
(the window is newest first, so the most recent 21 prices are `take 21`). -/
def specMAD (prices : List ℚ) : ℚ :=
  ((prices.take 21).sum / 21) / (prices.sum / 200)

/-- The per-security state `OnData` consults (src/solution.py lines 101, 105):
`self.Securities[symbol].Price` and `.IsTradable`. -/
structure SecState where
  price : ℚ
  isTradable : Bool

/-- The guard of lines 101 and 105: `Price != 0 and IsTradable`. -/
def passesCheck (sec : SymId → SecState) (s : SymId) : Bool :=
  decide ((sec s).price ≠ 0) && (sec s).isTradable

/-- Long-side holdings set by `OnData` (src/solution.py lines 100-102): weight
`1/count_long` for each long symbol passing the guard, where
`count_long = len(self.long)`. -/
def longAlloc (long : List SymId) (sec : SymId → SecState) : List (SymId × ℚ) :=
  (long.filter (passesCheck sec)).map (fun s => (s, 1 / (long.length : ℚ)))

/-- Short-side holdings set by `OnData` (src/solution.py lines 104-106): weight
`-1/count_short` for each short symbol passing the guard. -/
def shortAlloc (short : List SymId) (sec : SymId → SecState) : List (SymId × ℚ) :=
  (short.filter (passesCheck sec)).map (fun s => (s, -(1 / (short.length : ℚ))))

/-- All holdings set by one rebalance in `OnData` (src/solution.py lines 95-106). -/
def OnData.holdings (long short : List SymId) (sec : SymId → SecState) : List (SymId × ℚ) :=
  longAlloc long sec ++ shortAlloc short sec

/-- Sum of the absolute values of the weights in a holdings list. -/
def absSum (hs : List (SymId × ℚ)) : ℚ := (hs.map (fun h => |h.2|)).sum

/-- Spec fixture `[100]*179 + [120]*21` with the 120s newest, as a
newest-first window. -/
def w1 : List ℚ := List.replicate 21 120 ++ List.replicate 179 100

/-- Spec fixture `[100]*179 + [130]*21` with the 130s newest, newest first. -/
def w2 : List ℚ := List.replicate 21 130 ++ List.replicate 179 100

/-- Spec fixture `[100]*179 + [60]*21` with the 60s newest, newest first. -/
def w3 : List ℚ := List.replicate 21 60 ++ List.replicate 179 100

/-- A ready window of 200 zero prices (a delisted/zero-price security). -/
def zeroWindow : List ℚ := List.replicate 200 0

/-- A security map where every security is tradable with a nonzero price. -/
def secGood : SymId → SecState := fun _ => ⟨5, true⟩

/-- A security map where every security has price 0 (fails the OnData guard). -/
def secDead : SymId → SecState := fun _ => ⟨0, true⟩

/-! ### Helper lemmas -/

lemma fixture_take (a b : ℚ) :
    (List.replicate 21 a ++ List.replicate 179 b).take 21 = List.replicate 21 a :=
  List.take_left' (by simp)

lemma npAverage_replicate (n : ℕ) (a : ℚ) :
    npAverage (List.replicate n a) = if n = 0 then 0 else a := by
  rcases Nat.eq_zero_or_pos n with h | h
  · simp [h, npAverage]
  · rw [npAverage, List.sum_replicate, List.length_replicate, nsmul_eq_mul, if_neg h.ne.symm]
    exact mul_div_cancel_left₀ a (by exact_mod_cast h.ne.symm)

lemma npAverage_fixture (a b : ℚ) :
    npAverage (List.replicate 21 a ++ List.replicate 179 b) = (21*a + 179*b) / 200 := by
  rw [npAverage, List.sum_append, List.sum_replicate, List.sum_replicate,
    List.length_append, List.length_replicate, List.length_replicate,
    nsmul_eq_mul, nsmul_eq_mul]
  norm_num

lemma npAverage_w1 : npAverage w1 = 1021/10 := by
  rw [w1, npAverage_fixture]; norm_num

lemma madOf_w1 : madOf w1 = 1200/1021 := by
  rw [madOf, w1, fixture_take, npAverage_replicate, npAverage_fixture]
  norm_num

lemma madOf_w2 : madOf w2 = 2600/2063 := by
  rw [madOf, w2, fixture_take, npAverage_replicate, npAverage_fixture]
  norm_num

lemma madOf_w3 : madOf w3 = 300/479 := by
  rw [madOf, w3, fixture_take, npAverage_replicate, npAverage_fixture]
  norm_num

lemma eq_of_keysNodup {l : List (SymId × ℚ)} (h : (l.map Prod.fst).Nodup)
    {s : SymId} {a b : ℚ} (ha : (s, a) ∈ l) (hb : (s, b) ∈ l) : a = b := by
  induction l with
  | nil => cases ha
  | cons hd tl ih =>
    obtain ⟨k, v⟩ := hd
    rw [List.map_cons, List.nodup_cons] at h
    rcases List.mem_cons.1 ha with ha1 | ha1 <;> rcases List.mem_cons.1 hb with hb1 | hb1
    · rw [Prod.mk.injEq] at ha1 hb1
      rw [ha1.2, hb1.2]
    · exfalso
      rw [Prod.mk.injEq] at ha1
      exact h.1 (List.mem_map.2 ⟨(s, b), hb1, ha1.1⟩)
    · exfalso
      rw [Prod.mk.injEq] at hb1
      exact h.1 (List.mem_map.2 ⟨(s, a), ha1, hb1.1⟩)
    · exact ih h.2 ha1 hb1

lemma mem_filter_map_fst {l : List (SymId × ℚ)} (h : (l.map Prod.fst).Nodup)
    {s : SymId} {m : ℚ} (hm : (s, m) ∈ l) (p : ℚ → Bool) :
    s ∈ (l.filter (fun x => p x.2)).map Prod.fst ↔ p m = true := by
  constructor
  · intro hs
    rcases List.mem_map.1 hs with ⟨⟨s2, m2⟩, hmem, hfst⟩
    rcases List.mem_filter.1 hmem with ⟨hmem2, hp⟩
    dsimp at hfst hp
    rw [hfst] at hmem2
    rw [eq_of_keysNodup h hmem2 hm] at hp
    exact hp
  · intro hp
    exact List.mem_map.2 ⟨(s, m), List.mem_filter.2 ⟨hm, hp⟩, rfl⟩

lemma fine_long_eq (entries : List (SymId × List ℚ)) :
    (FineSelectionFunction entries).long
      = ((FineSelectionFunction entries).mads.filter
          (fun x => decide ((12 : ℚ)/10 ≤ x.2))).map Prod.fst := rfl

lemma fine_short_eq (entries : List (SymId × List ℚ)) :
    (FineSelectionFunction entries).short
      = ((FineSelectionFunction entries).mads.filter
          (fun x => decide (x.2 ≤ (8 : ℚ)/10))).map Prod.fst := rfl

lemma fine_mads_eq (entries : List (SymId × List ℚ)) :
    (FineSelectionFunction entries).mads = entries.map (fun e => (e.1, madOf e.2)) := rfl

lemma fine_long_single {s : SymId} {w : List ℚ} (h : (12 : ℚ)/10 ≤ madOf w) :
    s ∈ (FineSelectionFunction [(s, w)]).long := by
  rw [fine_long_eq, fine_mads_eq]
  simp [h]

lemma fine_not_long_single {s : SymId} {w : List ℚ} (h : ¬ ((12 : ℚ)/10 ≤ madOf w)) :
    s ∉ (FineSelectionFunction [(s, w)]).long := by
  rw [fine_long_eq, fine_mads_eq]
  simp [h]

lemma fine_short_single {s : SymId} {w : List ℚ} (h : madOf w ≤ (8 : ℚ)/10) :
    s ∈ (FineSelectionFunction [(s, w)]).short := by
  rw [fine_short_eq, fine_mads_eq]
  simp [h]

lemma fine_not_short_single {s : SymId} {w : List ℚ} (h : ¬ (madOf w ≤ (8 : ℚ)/10)) :
    s ∉ (FineSelectionFunction [(s, w)]).short := by
  rw [fine_short_eq, fine_mads_eq]
  simp [h]

/-! ### Claim theorems -/

/-- Claim C1: for every symbol processed in FineSelectionFunction whose rolling
window is ready (holds exactly 200 prices, newest first), the computed MAD
entry is present and equals the mean of the most recent 21 prices divided by
the mean of all 200 prices in the window (`specMAD`, written from the spec). -/
theorem fine_mad_eq_spec (entries : List (SymId × List ℚ)) (s : SymId) (w : List ℚ)
    (hmem : (s, w) ∈ entries) (hlen : w.length = 200) :
    (s, madOf w) ∈ (FineSelectionFunction entries).mads ∧ madOf w = specMAD w := by
  constructor
  · rw [fine_mads_eq]
    exact List.mem_map.2 ⟨(s, w), hmem, rfl⟩
  · have ht : (w.take 21).length = 21 := by
      rw [List.length_take, hlen]
      decide
    rw [madOf, specMAD, npAverage, npAverage, ht, hlen]
    norm_num

/-- Witness for C1 at the concrete ready window `w1`. -/
theorem fine_mad_eq_spec_witness :
    (0, madOf w1) ∈ (FineSelectionFunction [(0, w1)]).mads ∧ madOf w1 = specMAD w1 :=
  fine_mad_eq_spec [(0, w1)] 0 w1 (by simp) (by norm_num [w1])

/-- Claim C2: for every symbol with a computed MAD value, FineSelectionFunction
places it in the long list iff `mad >= 1.2`, in the short list iff
`mad <= 0.8`, and in neither list otherwise.  The Python `MAD` dict has unique
keys, reflected in the `Nodup` hypothesis. -/
theorem fine_threshold_classification (entries : List (SymId × List ℚ))
    (h : ((FineSelectionFunction entries).mads.map Prod.fst).Nodup)
    (s : SymId) (m : ℚ) (hm : (s, m) ∈ (FineSelectionFunction entries).mads) :
    (s ∈ (FineSelectionFunction entries).long ↔ (12 : ℚ)/10 ≤ m) ∧
    (s ∈ (FineSelectionFunction entries).short ↔ m ≤ (8 : ℚ)/10) ∧
    ((8 : ℚ)/10 < m → m < (12 : ℚ)/10 →
      s ∉ (FineSelectionFunction entries).long ∧
      s ∉ (FineSelectionFunction entries).short) := by
  have hL : s ∈ (FineSelectionFunction entries).long ↔ (12 : ℚ)/10 ≤ m := by
    rw [fine_long_eq]
    exact (mem_filter_map_fst h hm (fun q => decide ((12 : ℚ)/10 ≤ q))).trans (by simp)
  have hS : s ∈ (FineSelectionFunction entries).short ↔ m ≤ (8 : ℚ)/10 := by
    rw [fine_short_eq]
    exact (mem_filter_map_fst h hm (fun q => decide (q ≤ (8 : ℚ)/10))).trans (by simp)
  refine ⟨hL, hS, fun h8 h12 => ⟨fun c => ?_, fun c => ?_⟩⟩
  · have := hL.1 c
    linarith
  · have := hS.1 c
    linarith

/-- Witness for C2 at the concrete entry `(0, w2)`. -/
theorem fine_threshold_classification_witness :
    ((0 : SymId) ∈ (FineSelectionFunction [(0, w2)]).long ↔ (12 : ℚ)/10 ≤ madOf w2) ∧
    ((0 : SymId) ∈ (FineSelectionFunction [(0, w2)]).short ↔ madOf w2 ≤ (8 : ℚ)/10) ∧
    ((8 : ℚ)/10 < madOf w2 → madOf w2 < (12 : ℚ)/10 →
      (0 : SymId) ∉ (FineSelectionFunction [(0, w2)]).long ∧
      (0 : SymId) ∉ (FineSelectionFunction [(0, w2)]).short) :=
  fine_threshold_classification [(0, w2)] (by rw [fine_mads_eq]; simp) 0 (madOf w2)
    (by rw [fine_mads_eq]; simp)

/-- Claim C5: after every run of FineSelectionFunction the long and short lists
are disjoint (the `MAD` dict has unique keys, hence the `Nodup` hypothesis). -/
theorem long_short_disjoint (entries : List (SymId × List ℚ))
    (h : ((FineSelectionFunction entries).mads.map Prod.fst).Nodup)
    (s : SymId) (hs : s ∈ (FineSelectionFunction entries).long) :
    s ∉ (FineSelectionFunction entries).short := by
  intro hss
  rw [fine_long_eq] at hs
  rw [fine_short_eq] at hss
  rcases List.mem_map.1 hs with ⟨⟨s1, m1⟩, hf1, he1⟩
  rcases List.mem_filter.1 hf1 with ⟨hm1, hp1⟩
  rcases List.mem_map.1 hss with ⟨⟨s2, m2⟩, hf2, he2⟩
  rcases List.mem_filter.1 hf2 with ⟨hm2, hp2⟩
  simp only [decide_eq_true_eq] at hp1 hp2
  dsimp at he1 he2
  rw [he1] at hm1
  rw [he2] at hm2
  have := eq_of_keysNodup h hm1 hm2
  rw [this] at hp1
  linarith

/-- Witness for C5: with the single entry `(0, w2)` the symbol is long,
hence not short. -/
theorem long_short_disjoint_witness :
    (0 : SymId) ∉ (FineSelectionFunction [(0, w2)]).short :=
  long_short_disjoint [(0, w2)] (by rw [fine_mads_eq]; simp) 0
    (fine_long_single (by rw [madOf_w2]; norm_num))

/-- Claim C3 counterexample: with one long symbol whose price is 0, the side is
non-empty but `OnData` assigns it no weight, so the side's absolute weight
sum is 0, not 1. -/
theorem onData_absSum_counterexample :
    ([0] : List SymId) ≠ [] ∧ absSum (longAlloc [0] secDead) = 0 ∧ (0 : ℚ) ≠ 1 := by
  refine ⟨by simp, ?_, by norm_num⟩
  have hf : List.filter (passesCheck secDead) [0] = [] := by
    simp [passesCheck, secDead]
  rw [longAlloc, hf]
  rfl

/-- Claim C3, amended: after a rebalance in OnData, for each non-empty side all
of whose symbols pass the tradability guard (nonzero price and tradable), the
sum of the absolute values of the weights assigned to that side equals 1;
symbols failing the guard receive no weight. -/
theorem onData_absSum_eq_one (long short : List SymId) (sec : SymId → SecState)
    (hL : ∀ s ∈ long, passesCheck sec s = true)
    (hS : ∀ s ∈ short, passesCheck sec s = true) :
    (long ≠ [] → absSum (longAlloc long sec) = 1) ∧
    (short ≠ [] → absSum (shortAlloc short sec) = 1) := by
  constructor
  · intro hne
    have hlen : (0 : ℚ) < (long.length : ℚ) := by
      have h0 : long.length ≠ 0 := fun h0 => hne (List.length_eq_zero.1 h0)
      exact_mod_cast Nat.pos_of_ne_zero h0
    rw [longAlloc, List.filter_eq_self.2 hL, absSum, List.map_map]
    have hc : ((fun h : SymId × ℚ => |h.2|) ∘ fun s => (s, 1 / (long.length : ℚ)))
        = fun _ => |1 / (long.length : ℚ)| := rfl
    rw [hc, List.map_const', List.sum_replicate, abs_of_nonneg (by positivity),
      nsmul_eq_mul, mul_one_div, div_self hlen.ne.symm]
  · intro hne
    have hlen : (0 : ℚ) < (short.length : ℚ) := by
      have h0 : short.length ≠ 0 := fun h0 => hne (List.length_eq_zero.1 h0)
      exact_mod_cast Nat.pos_of_ne_zero h0
    rw [shortAlloc, List.filter_eq_self.2 hS, absSum, List.map_map]
    have hc : ((fun h : SymId × ℚ => |h.2|) ∘ fun s => (s, -(1 / (short.length : ℚ))))
        = fun _ => |(-(1 / (short.length : ℚ)))| := rfl
    rw [hc, List.map_const', List.sum_replicate, abs_neg, abs_of_nonneg (by positivity),
      nsmul_eq_mul, mul_one_div, div_self hlen.ne.symm]

/-- Witness for the amended C3: two tradable longs and one tradable short. -/
theorem onData_absSum_eq_one_witness :
    absSum (longAlloc [0, 1] secGood) = 1 ∧ absSum (shortAlloc [2] secGood) = 1 :=
  ⟨(onData_absSum_eq_one [0, 1] [2] secGood
      (by intro s _; norm_num [passesCheck, secGood])
      (by intro s _; norm_num [passesCheck, secGood])).1 (by simp),
   (onData_absSum_eq_one [0, 1] [2] secGood
      (by intro s _; norm_num [passesCheck, secGood])
      (by intro s _; norm_num [passesCheck, secGood])).2 (by simp)⟩

/-- Claim C4: on a ready window of 200 zero prices the long-window mean
`ma_long` is 0, yet FineSelectionFunction still computes a MAD entry for the
symbol by dividing by it: the source has no guard on `ma_long` before the
division at line 83. -/
theorem mad_zero_denominator_unguarded :
    (⟨0, zeroWindow⟩ : SymbolData).is_ready = true ∧
    npAverage zeroWindow = 0 ∧
    (0, madOf zeroWindow) ∈ (FineSelectionFunction [(0, zeroWindow)]).mads := by
  refine ⟨?_, ?_, ?_⟩
  · rw [SymbolData.is_ready, zeroWindow, List.length_replicate]
    rfl
  · rw [zeroWindow, npAverage_replicate]
    norm_num
  · rw [fine_mads_eq]
    simp

/-- Claim C6: every symbol whose rolling window holds fewer than 200 prices is
excluded from the list CoarseSelectionFunction returns; the selection is a
total function, so insufficient history never raises. -/
theorem coarse_excludes_not_ready (selected : List SymId) (data : SymId → SymbolData)
    (s : SymId) (h : (data s).Prices.length < 200) :
    s ∉ CoarseSelectionFunction.select selected data := by
  intro hmem
  have h1 : s ∈ selected.filter (fun q => (data q).is_ready) :=
    List.take_subset _ _ hmem
  have h2 := (List.mem_filter.1 h1).2
  rw [SymbolData.is_ready] at h2
  simp only [beq_iff_eq, period] at h2
  omega

/-- Witness for C6: a 100-price window is excluded. -/
theorem coarse_excludes_not_ready_witness :
    (7 : SymId) ∉ CoarseSelectionFunction.select [7] (fun _ => ⟨7, List.replicate 100 1⟩) :=
  coarse_excludes_not_ready [7] (fun _ => ⟨7, List.replicate 100 1⟩) 7 (by simp)

/-- Claim C7: the SymbolData buffer never exceeds 200 prices under any sequence
of updates from an empty window; once it holds 200 prices, an update prepends
the newest price and evicts the oldest (the last element of the newest-first
list); and `is_ready` is true exactly when the length is 200. -/
theorem symbolData_window_invariants (s0 : SymId) (prices : List ℚ) :
    ((SymbolData.init s0).applyUpdates prices).Prices.length ≤ 200 ∧
    (∀ (d : SymbolData) (p : ℚ), d.Prices.length = 200 →
      (d.update p).Prices = p :: d.Prices.dropLast) ∧
    (∀ d : SymbolData, d.is_ready = true ↔ d.Prices.length = 200) := by
  refine ⟨?_, ?_, ?_⟩
  · have key : ∀ (ps : List ℚ) (d : SymbolData), d.Prices.length ≤ 200 →
        (d.applyUpdates ps).Prices.length ≤ 200 := by
      intro ps
      induction ps with
      | nil => intro d h; exact h
      | cons p ps ih =>
        intro d h
        have step : (d.update p).Prices.length ≤ 200 := by
          rw [SymbolData.update]
          simp only [RollingWindow.add, List.length_take, period]
          omega
        exact ih (d.update p) step
    exact key prices (SymbolData.init s0) (by simp [SymbolData.init])
  · intro d p h
    rw [SymbolData.update]
    show ((p :: d.Prices).take period) = p :: d.Prices.dropLast
    rw [List.dropLast_eq_take, h]
    show ((p :: d.Prices).take (199 + 1)) = p :: d.Prices.take 199
    rw [List.take_succ_cons]
  · intro d
    rw [SymbolData.is_ready]
    simp [period]

/-- Witness for C7 at concrete windows. -/
theorem symbolData_window_invariants_witness :
    ((SymbolData.init 0).applyUpdates (List.replicate 300 (1 : ℚ))).Prices.length ≤ 200 ∧
    ((⟨0, zeroWindow⟩ : SymbolData).update 1).Prices = 1 :: zeroWindow.dropLast ∧
    ((⟨0, zeroWindow⟩ : SymbolData).is_ready = true ↔ zeroWindow.length = 200) :=
  ⟨(symbolData_window_invariants 0 (List.replicate 300 (1 : ℚ))).1,
   (symbolData_window_invariants 0 []).2.1 ⟨0, zeroWindow⟩ 1
     (by rw [zeroWindow, List.length_replicate]),
   (symbolData_window_invariants 0 []).2.2 ⟨0, zeroWindow⟩⟩

/-- Claim C8: with an empty side OnData makes no allocation for that side, and
every weight it ever emits is `±1/count` of a side that is non-empty, so the
divisions are never evaluated with a zero count. -/
theorem onData_empty_side_safe (sec : SymId → SecState) (long short : List SymId)
    (s : SymId) (q : ℚ) :
    longAlloc [] sec = [] ∧ shortAlloc [] sec = [] ∧
    ((s, q) ∈ OnData.holdings long short sec →
      (long ≠ [] ∧ q = 1 / (long.length : ℚ)) ∨
      (short ≠ [] ∧ q = -(1 / (short.length : ℚ)))) := by
  refine ⟨rfl, rfl, fun hmem => ?_⟩
  rcases List.mem_append.1 hmem with hmem | hmem
  · left
    rcases List.mem_map.1 hmem with ⟨s1, hf, he⟩
    refine ⟨List.ne_nil_of_mem (List.mem_of_mem_filter hf), ?_⟩
    exact (congrArg Prod.snd he).symm
  · right
    rcases List.mem_map.1 hmem with ⟨s1, hf, he⟩
    refine ⟨List.ne_nil_of_mem (List.mem_of_mem_filter hf), ?_⟩
    exact (congrArg Prod.snd he).symm

/-- Witness for C8: a singleton long side and empty short side. -/
theorem onData_empty_side_safe_witness :
    longAlloc [] secGood = [] ∧ shortAlloc [] secGood = [] ∧
    ((([0] : List SymId) ≠ [] ∧ (1 : ℚ) = 1 / ((([0] : List SymId).length : ℚ))) ∨
     (([] : List SymId) ≠ [] ∧ (1 : ℚ) = -(1 / ((([] : List SymId).length : ℚ))))) :=
  ⟨(onData_empty_side_safe secGood [0] [] 0 1).1,
   (onData_empty_side_safe secGood [0] [] 0 1).2.1,
   (onData_empty_side_safe secGood [0] [] 0 1).2.2
     (by norm_num [OnData.holdings, longAlloc, shortAlloc, passesCheck, secGood])⟩

/-- Claim C9 counterexample: on the spec's own fixtures the quoted values are
wrong: for `w1` the long mean is 102.1, not about 102.2, and for `w3` the MAD
is 300/479, about 0.626, nowhere near the quoted 0.79. -/
theorem mad_fixture_counterexample :
    npAverage w1 = 1021/10 ∧ ¬ (|npAverage w1 - 1022/10| < 1/20) ∧
    madOf w3 = 300/479 ∧ ¬ (|madOf w3 - 79/100| < 1/10) := by
  refine ⟨npAverage_w1, ?_, madOf_w3, ?_⟩
  · rw [npAverage_w1]
    have e : (1021 : ℚ)/10 - 1022/10 = -(1/10) := by norm_num
    rw [e, abs_neg, abs_of_nonneg (by norm_num)]
    norm_num
  · rw [madOf_w3]
    have e : (300 : ℚ)/479 - 79/100 = -(7841/47900) := by norm_num
    rw [e, abs_neg, abs_of_nonneg (by norm_num)]
    norm_num

/-- Claim C9, amended: on the hand-computed fixtures, for the 200-price window
`[100]*179 + [120]*21` (120s newest) `ma_short` is 120, `ma_long` is 102.1,
the MAD is 1200/1021 (about 1.175) and the symbol is excluded; for
`[100]*179 + [130]*21` the MAD is 2600/2063 (about 1.260) and the symbol is
classified long; for `[100]*179 + [60]*21` the MAD is 300/479 (about 0.626)
and the symbol is classified short. -/
theorem mad_fixtures_amended :
    npAverage (w1.take 21) = 120 ∧ npAverage w1 = 1021/10 ∧ madOf w1 = 1200/1021 ∧
    (0 : SymId) ∉ (FineSelectionFunction [(0, w1)]).long ∧
    (0 : SymId) ∉ (FineSelectionFunction [(0, w1)]).short ∧
    madOf w2 = 2600/2063 ∧ (0 : SymId) ∈ (FineSelectionFunction [(0, w2)]).long ∧
    madOf w3 = 300/479 ∧ (0 : SymId) ∈ (FineSelectionFunction [(0, w3)]).short := by
  refine ⟨?_, npAverage_w1, madOf_w1, ?_, ?_, madOf_w2, ?_, madOf_w3, ?_⟩
  · rw [w1, fixture_take, npAverage_replicate]
    norm_num
  · exact fine_not_long_single (by rw [madOf_w1]; norm_num)
  · exact fine_not_short_single (by rw [madOf_w1]; norm_num)
  · exact fine_long_single (by rw [madOf_w2]; norm_num)
  · exact fine_short_single (by rw [madOf_w3]; norm_num)

/-- Claim C10: on a rebalance day CoarseSelectionFunction returns at most
`coarse_count = 500` symbols. -/
theorem coarse_count_le_500 (selected : List SymId) (data : SymId → SymbolData) :
    (CoarseSelectionFunction.select selected data).length ≤ 500 ∧ coarse_count = 500 := by
  constructor
  · rw [CoarseSelectionFunction.select, List.length_take]
    simp [coarse_count]
  · rfl
